import Mathlib

/-!
# EasyDeL core: shallow embedding and verification

This file embeds, in Lean 4, the parts of the EasyDeL repository that the
specification's testable claims are about:

* the NF4 block-wise quantize/pack and unpack/dequantize pipeline
  (`src/easydel/layers/quantization/linear_nf4.py`);
* the DBRX mixture-of-experts router: top-k gating, weight renormalization,
  jitter, and the uniform-expert-assignment override
  (`src/easydel/modules/dbrx/modelling_dbrx_flax.py`);
* the decoder-block residual pipelines of GPT-NeoX and Mistral;
* the input-validation and sequence-length checks of the model forward
  passes, and the logits dtype propagation of the ForCausalLM wrappers.

Machine floats are idealized as exact rationals extended with the IEEE
special values (`FP`), machine integers as `Nat` with explicit `% 2 ^ 32`
two's-complement encodings where the source relies on int32 semantics.
Python `raise` sites are embedded as `Except String` / explicit error
outcomes.
-/

namespace EasyDeL

/-! ## Input validation of the model forward passes

`MistralModel.__call__` (modeling_mistral_flax.py, lines 417-422) checks

  if (input_ids is None) ^ (inputs_embeds is not None): raise ValueError(...)

`DbrxModel.__call__` (modelling_dbrx_flax.py, lines 732-740) and
`GPTNeoXModel.__call__` (modeling_gpt_neo_x_flax.py, lines 378-385) check

  if input_ids is not None and input_embeds is not None: raise ValueError(...)
  if input_embeds is None and input_ids is not None: input_embeds = embed(...)
  else: raise ValueError("you should specify input_embeds or input_ids one of them")

The embeddings below record only whether each argument was supplied
(`true` = not None), which is all the checks inspect. -/

/-- Input validation of `MistralModel.__call__`: raises when
`(input_ids is None) ^ (inputs_embeds is not None)`. -/
def mistralInputsCheck (idsGiven embedsGiven : Bool) : Except String Unit :=
  if xor (!idsGiven) embedsGiven then
    .error
      "You cannot specify both input_ids and inputs_embeds at the same time, and must specify either one"
  else .ok ()

/-- Input validation of `DbrxModel.__call__`: the both-given check, then the
`if input_embeds is None and input_ids is not None ... else raise` branch. -/
def dbrxInputsCheck (idsGiven embedsGiven : Bool) : Except String Unit :=
  if idsGiven && embedsGiven then
    .error "You cannot specify both decoder_input_ids and decoder_input_embeds at the same time"
  else if !embedsGiven && idsGiven then .ok ()
  else .error "you should specify input_embeds or input_ids one of them"

/-- Input validation of `GPTNeoXModel.__call__`; textually identical logic to
the DBRX model's check. -/
def gptNeoXInputsCheck (idsGiven embedsGiven : Bool) : Except String Unit :=
  if idsGiven && embedsGiven then
    .error "You cannot specify both decoder_input_ids and decoder_input_embeds at the same time"
  else if !embedsGiven && idsGiven then .ok ()
  else .error "you should specify input_embeds or input_ids one of them"

/-- Exactly one of the two inputs was supplied. -/
def exactlyOneInput (idsGiven embedsGiven : Bool) : Prop :=
  idsGiven ≠ embedsGiven

instance (a b : Bool) : Decidable (exactlyOneInput a b) := by
  unfold exactlyOneInput; infer_instance

/-! ## Maximum-position assertion

`MistralModel.__call__` (lines 425-427) and `GPTNeoXModel.__call__`
(lines 395-397) both run

  assert sequence_length <= self.config.max_position_embeddings, \
    f"Maximum Position Embedding Reached ! (Excepted <= {max} got {seq})"
-/

/-- The f-string message of the sequence-length assertion. -/
def maxPositionMessage (maxPos seqLen : Nat) : String :=
  "Maximum Position Embedding Reached ! (Excepted <= " ++ toString maxPos
    ++ " got " ++ toString seqLen ++ ")"

/-- The sequence-length assertion of `MistralModel.__call__`. -/
def mistralMaxPositionCheck (maxPos seqLen : Nat) : Except String Unit :=
  if seqLen ≤ maxPos then .ok () else .error (maxPositionMessage maxPos seqLen)

/-- The sequence-length assertion of `GPTNeoXModel.__call__`. -/
def gptNeoXMaxPositionCheck (maxPos seqLen : Nat) : Except String Unit :=
  if seqLen ≤ maxPos then .ok () else .error (maxPositionMessage maxPos seqLen)

/-! ## DBRX router jitter

`DbrxRouter.jitter` (modelling_dbrx_flax.py, lines 468-474):

  low = 1.0 - self.moe_jitter_eps
  high = 1.0 + self.moe_jitter_eps
  noise = jax.random.normal(self.make_rng("params"), x.shape, dtype=x.dtype)
  return low + noise * (high - low)

The factor applied to one input element, as a function of the epsilon and of
the Gaussian sample drawn for that element.  `jax.random.normal` draws from a
standard normal distribution, whose support is all of ℝ, so every rational
`noise` value below is a realizable outcome of the randomness source. -/
def dbrxJitterFactor (eps noise : ℚ) : ℚ :=
  let low := 1 - eps
  let high := 1 + eps
  low + noise * (high - low)

/-! ## Nibble packing

`single_quantize_and_pack_nf4` (linear_nf4.py, lines 90-94) packs the int32
code stream two codes per byte:

  quantized = quantized.reshape(-1, 2)
  packed = (quantized[:, 0] << 4) | quantized[:, 1]
  return packed.astype(jnp.uint8), absmax

`single_dequantize_nf4` (lines 102-104) unpacks:

  high = (packed_values >> 4) & 0xF
  low = packed_values & 0xF
  unpacked = jnp.stack([high, low], axis=1).reshape(-1)

Codes are int32 values; they are encoded here as naturals below `2 ^ 32`
(two's complement), so `<< 4` is a shift followed by `% 2 ^ 32` and the
`astype(jnp.uint8)` cast is truncation `% 256`. -/

/-- Packs pairs: `(quantized[:, 0] << 4) | quantized[:, 1]` then `astype(jnp.uint8)`,
applied to consecutive pairs of the flattened code stream.  The
`reshape(-1, 2)` of the source requires an even number of codes; a trailing
unpaired code therefore has no image and is dropped here. -/
def packPairs : List ℕ → List ℕ
  | q0 :: q1 :: rest => ((((q0 <<< 4) % 2 ^ 32) ||| q1) % 256) :: packPairs rest
  | _ => []

/-- Unpacks nibbles: `high = (b >> 4) & 0xF`, `low = b & 0xF`, interleaved in order by
`jnp.stack([high, low], axis=1).reshape(-1)`. -/
def unpackPairs : List ℕ → List ℕ
  | [] => []
  | b :: rest => ((b >>> 4) &&& 15) :: (b &&& 15) :: unpackPairs rest

/-! ## Logits dtype propagation of the ForCausalLM wrappers

The three models build their `lm_head` as an `nnx.Linear` with
`dtype=self.dtype` (the configured compute dtype); flax's `promote_dtype`
casts inputs and parameters to that dtype when it is given, so the linear's
output carries the compute dtype.  `GPTNeoXForCausalLM.__call__`
(modeling_gpt_neo_x_flax.py, line 512) afterwards runs
`lm_logits = lm_logits.astype(jnp.float32)`; `MistralForCausalLM.__call__`
(lines 549-558) and `DbrxForCausalLM.__call__` (lines 884-885) return the
`lm_head` output without a cast. -/

/-- The dtypes the configs of these models use. -/
inductive DType where
  | f32 : DType
  | f16 : DType
  | bf16 : DType
deriving DecidableEq, Repr

/-- Embeds `jnp.promote_types` restricted to the three dtypes above: float32
absorbs, and float16 with bfloat16 promotes to float32. -/
def promoteTypes : DType → DType → DType
  | .f32, _ => .f32
  | _, .f32 => .f32
  | .f16, .bf16 => .f32
  | .bf16, .f16 => .f32
  | .f16, .f16 => .f16
  | .bf16, .bf16 => .bf16

/-- Output dtype of a flax `nnx.Linear`: the layer's `dtype` when given,
otherwise the promotion of the input and parameter dtypes. -/
def linearOutDtype (layerDtype : Option DType) (inputDtype paramDtype : DType) : DType :=
  match layerDtype with
  | some d => d
  | none => promoteTypes inputDtype paramDtype

/-- Logits dtype of `MistralForCausalLM.__call__`: the tied branch calls
`jax.lax.dot_general(hidden_states, embedding.T)` directly (result dtype is
the promotion of the operand dtypes), the untied branch calls the `lm_head`
linear built with `dtype=computeDtype`; no cast follows. -/
def mistralLogitsDtype (tieWordEmbeddings : Bool)
    (hiddenDtype computeDtype paramDtype : DType) : DType :=
  if tieWordEmbeddings then promoteTypes hiddenDtype paramDtype
  else linearOutDtype (some computeDtype) hiddenDtype paramDtype

/-- Logits dtype of `DbrxForCausalLM.__call__`: `logits = self.lm_head(...)`
with `dtype=computeDtype`; no cast follows. -/
def dbrxLogitsDtype (hiddenDtype computeDtype paramDtype : DType) : DType :=
  linearOutDtype (some computeDtype) hiddenDtype paramDtype

/-- Embeds `.astype(jnp.float32)`: a cast to float32 regardless of the argument. -/
def astypeFloat32 (d : DType) : DType :=
  match d with
  | _ => DType.f32

/-- Logits dtype of `GPTNeoXForCausalLM.__call__`: both tie branches call the
`lm_head` linear, then `lm_logits = lm_logits.astype(jnp.float32)`. -/
def gptNeoXLogitsDtype (tieWordEmbeddings : Bool)
    (hiddenDtype computeDtype paramDtype : DType) : DType :=
  let headOut := linearOutDtype (some computeDtype) hiddenDtype paramDtype
  let _ := tieWordEmbeddings
  astypeFloat32 headOut

/-! ## Idealized IEEE floats

The NF4 pipeline's interesting behaviour (the all-zero block, where
`blocks / absmax` divides by zero) lives in IEEE special values, so floats
are modelled as exact rationals extended with `nan`, `inf` and `ninf`.
Signed zero is collapsed to `0`; none of the verified paths distinguish
`-0.0` from `0.0`. -/

/-- A float: an exact rational or an IEEE special value. -/
inductive FP where
  | nan : FP
  | inf : FP
  | ninf : FP
  | fin : ℚ → FP
deriving DecidableEq, Repr

/-- IEEE absolute value (`jnp.abs`). -/
def fpAbs : FP → FP
  | .nan => .nan
  | .inf => .inf
  | .ninf => .inf
  | .fin q => .fin |q|

/-- IEEE maximum as used by the `jnp.max` reduction: NaN propagates. -/
def fpMax : FP → FP → FP
  | .nan, _ => .nan
  | _, .nan => .nan
  | .inf, _ => .inf
  | _, .inf => .inf
  | .ninf, y => y
  | x, .ninf => x
  | .fin a, .fin b => .fin (max a b)

/-- Embeds `jnp.max` over a vector: fold of `fpMax`; `-inf` is the identity of the
float maximum, matching the reduction on a nonempty axis. -/
def fpListMax (l : List FP) : FP :=
  l.foldl fpMax .ninf

/-- IEEE `<`: NaN compares false against everything. -/
def fpLt : FP → FP → Bool
  | .nan, _ => false
  | _, .nan => false
  | .ninf, .ninf => false
  | .ninf, _ => true
  | _, .ninf => false
  | .inf, _ => false
  | .fin _, .inf => true
  | .fin a, .fin b => decide (a < b)

/-- The total order `np.searchsorted` / `jnp.searchsorted` compare with:
the IEEE order completed by placing NaN above everything (NumPy sorts NaN
to the end of an array). -/
def fpSortLt (x y : FP) : Bool :=
  match x, y with
  | .nan, _ => false
  | _, .nan => true
  | x, y => fpLt x y

/-- IEEE division (`/` on arrays); in particular `0 / 0 = NaN` and
`x / 0 = ±inf` for finite nonzero `x`. -/
def fpDiv : FP → FP → FP
  | .nan, _ => .nan
  | _, .nan => .nan
  | .inf, .inf => .nan
  | .inf, .ninf => .nan
  | .ninf, .inf => .nan
  | .ninf, .ninf => .nan
  | .inf, .fin b => if b < 0 then .ninf else .inf
  | .ninf, .fin b => if b < 0 then .inf else .ninf
  | .fin _, .inf => .fin 0
  | .fin _, .ninf => .fin 0
  | .fin a, .fin b =>
      if b = 0 then (if a = 0 then .nan else if 0 < a then .inf else .ninf)
      else .fin (a / b)

/-- IEEE multiplication (`*` on arrays); in particular `inf * 0 = NaN` and
`finite * 0 = 0`. -/
def fpMul : FP → FP → FP
  | .nan, _ => .nan
  | _, .nan => .nan
  | .inf, .inf => .inf
  | .inf, .ninf => .ninf
  | .ninf, .inf => .ninf
  | .ninf, .ninf => .inf
  | .inf, .fin b => if b = 0 then .nan else if 0 < b then .inf else .ninf
  | .fin a, .inf => if a = 0 then .nan else if 0 < a then .inf else .ninf
  | .ninf, .fin b => if b = 0 then .nan else if 0 < b then .ninf else .inf
  | .fin a, .ninf => if a = 0 then .nan else if 0 < a then .ninf else .inf
  | .fin a, .fin b => .fin (a * b)

/-! ## NF4 quantization (linear_nf4.py) -/

/-- Embeds `NF4_TABLE` (linear_nf4.py, lines 27-47): the 16 NF4 levels, indexed by
code.  Codes reaching this table come from `& 0xF` and are below 16; the
final catch-all is never consulted. -/
def nf4Table : ℕ → ℚ
  | 0 => -1.0
  | 1 => -0.6961928009986877
  | 2 => -0.5250730514526367
  | 3 => -0.39491748809814453
  | 4 => -0.28444138169288635
  | 5 => -0.18477343022823334
  | 6 => -0.09105003625154495
  | 7 => 0.0
  | 8 => 0.07958029955625534
  | 9 => 0.16093020141124725
  | 10 => 0.24611230194568634
  | 11 => 0.33791524171829224
  | 12 => 0.44070982933044434
  | 13 => 0.5626170039176941
  | 14 => 0.7229568362236023
  | 15 => 1.0
  | _ + 16 => 0

/-- Embeds `NF4_BOUNDARIES` (linear_nf4.py, lines 49-69): the 16 bucket boundaries,
starting at `-inf`. -/
def nf4Boundaries : List FP :=
  [.ninf,
   .fin (-0.8480964004993439),
   .fin (-0.6106329262256622),
   .fin (-0.4599952697753906),
   .fin (-0.33967943489551544),
   .fin (-0.23460740596055984),
   .fin (-0.13791173323988914),
   .fin (-0.045525018125772476),
   .fin 0.03979014977812767,
   .fin 0.1202552504837513,
   .fin 0.2035212516784668,
   .fin 0.2920137718319893,
   .fin 0.3893125355243683,
   .fin 0.5016634166240692,
   .fin 0.6427869200706482,
   .fin 0.8614784181118011]

/-- Embeds `jnp.searchsorted(NF4_BOUNDARIES, v)` (side `left`): the number of
boundaries strictly below `v` in the NaN-at-the-end total order. -/
def nf4SearchSorted (v : FP) : ℕ :=
  nf4Boundaries.countP (fun b => fpSortLt b v)

/-- The int32 code `searchsorted(...) - 1` (linear_nf4.py, line 88), in the
two's-complement encoding of int32 as a natural below `2 ^ 32`. -/
def quantCode (v : FP) : ℕ :=
  (nf4SearchSorted v + (2 ^ 32 - 1)) % 2 ^ 32

/-- Embeds `reshape(-1, blockSize)`: cut a flat list into rows of `blockSize`
(structural fuel recursion; callers supply lengths divisible by
`blockSize`, where this agrees with the reshape). -/
def chunkAux {α : Type} (bs : ℕ) : ℕ → List α → List (List α)
  | 0, _ => []
  | _, [] => []
  | fuel + 1, l => l.take bs :: chunkAux bs fuel (l.drop bs)

/-- Embeds `reshape(-1, blockSize)` of a flat list. -/
def reshapeRows {α : Type} (bs : ℕ) (l : List α) : List (List α) :=
  chunkAux bs l.length l

/-- Embeds `single_quantize_and_pack_nf4` (linear_nf4.py, lines 72-94): reshape into
blocks, per-block absolute maximum, normalize, bucket-search each value,
pack pairs of codes into bytes.  Returns `(packed, absmax)`. -/
def singleQuantizeAndPackNF4 (blocks : List FP) (blockSize : ℕ) : List ℕ × List FP :=
  let rows := reshapeRows blockSize blocks
  let absmax := rows.map (fun r => fpListMax (r.map fpAbs))
  let normalized := (rows.zip absmax).map (fun p => p.1.map (fun x => fpDiv x p.2))
  let quantized := normalized.flatten.map quantCode
  (packPairs quantized, absmax)

/-- Embeds `single_dequantize_nf4` (linear_nf4.py, lines 97-111): unpack nibbles,
look codes up in `NF4_TABLE`, reshape to `(num_blocks, blockSize)`, scale
each row by its absmax. -/
def singleDequantizeNF4 (packed : List ℕ) (absmax : List FP) (blockSize : ℕ) :
    List (List FP) :=
  let unpacked := unpackPairs packed
  let dequantized := unpacked.map (fun c => FP.fin (nf4Table c))
  let rows := reshapeRows blockSize dequantized
  (rows.zip absmax).map (fun p => p.1.map (fun d => fpMul d p.2))

/-! ## LinearNF4 construction (linear_nf4.py, lines 135-177)

`LinearNF4.__init__` runs, for `do_init=True`,

  kernel = kernel_init(kernel_key, (in_features, out_features), param_dtype)
  packed_kernel, scales = self._quantize_kernel(kernel)

where `_quantize_kernel` (lines 242-245) is a `@staticmethod` with two
required positional parameters `(kernel, block_size)`; the call passes one
argument, so Python raises a TypeError before any field assignment.  For
`do_init=False` it sets `packed_kernel, scales = None, None`. -/

/-- Outcome of running a Python constructor. -/
inductive PyOutcome (α : Type) where
  | ok : α → PyOutcome α
  | typeError : String → PyOutcome α
deriving DecidableEq

/-- The fields `LinearNF4.__init__` stores. -/
structure LinearNF4State where
  packedKernel : Option (List ℕ)
  scales : Option (List FP)
  bias : Option (List ℚ)
deriving DecidableEq

/-- Number of required positional parameters of the staticmethod
`LinearNF4._quantize_kernel(kernel, block_size)` (lines 242-245). -/
def quantizeKernelParamCount : ℕ := 2

/-- Number of arguments in the `__init__` call
`self._quantize_kernel(kernel)` (line 155; a staticmethod receives no
implicit `self`). -/
def initQuantizeKernelArgCount : ℕ := 1

/-- Embeds `LinearNF4.__init__`: Python arity checking of the
`_quantize_kernel(kernel)` call embedded explicitly.  The matching-arity
branch performs the quantization the call would have performed. -/
def linearNF4Init (doInit useBias : Bool) (kernel : List FP) (biasInit : List ℚ)
    (blockSize : ℕ) : PyOutcome LinearNF4State :=
  if doInit then
    if initQuantizeKernelArgCount = quantizeKernelParamCount then
      let pk := singleQuantizeAndPackNF4 kernel blockSize
      .ok ⟨some pk.1, some pk.2, if useBias then some biasInit else none⟩
    else
      .typeError "_quantize_kernel() missing 1 required positional argument: block_size"
  else
    .ok ⟨none, none, none⟩

/-! ## DBRX router (modelling_dbrx_flax.py, lines 477-512)

The router computes `weights = softmax(layer(x))`, then
`top_weights, top_experts = jax.lax.top_k(weights, moe_top_k)`, then
optionally divides `top_weights` by
`jnp.linalg.norm(top_weights, ord=int(moe_normalize_expert_weights), axis=-1)`,
and under `uniform_expert_assignment` replaces `top_experts` by
`arange(prod(top_experts.shape)) % moe_num_experts` reshaped.

The embedding works per token on the post-softmax weight row; the softmax
itself is characterized by its exact range (`SoftmaxImage`). -/

/-- Helper for `jax.lax.top_k`: among `best :: rest`, return the pair with the
largest value — the earliest such pair on ties — and the remaining pairs in
their original order. -/
def pickMax : (ℕ × ℚ) → List (ℕ × ℚ) → ((ℕ × ℚ) × List (ℕ × ℚ))
  | best, [] => (best, [])
  | best, x :: xs =>
      if best.2 < x.2 then ((pickMax x xs).1, best :: (pickMax x xs).2)
      else ((pickMax best xs).1, x :: (pickMax best xs).2)

/-- Select the `k` largest (index, value) pairs in descending value order,
ties resolved towards the smaller index, as `jax.lax.top_k` does. -/
def topKAux : ℕ → List (ℕ × ℚ) → List (ℕ × ℚ)
  | 0, _ => []
  | _ + 1, [] => []
  | k + 1, x :: xs => (pickMax x xs).1 :: topKAux k (pickMax x xs).2

/-- Embeds `jax.lax.top_k(ws, k)` on one weight row: the top-k values and their
indices. -/
def laxTopK (k : ℕ) (ws : List ℚ) : List ℚ × List ℕ :=
  let sel := topKAux k ws.enum
  (sel.map Prod.snd, sel.map Prod.fst)

/-- Holds when `n` is `jnp.linalg.norm(ws, ord=p)`: nonnegative with
`n ^ p = Σ |w| ^ p`.  (Stated relationally because the `p`-th root is not
rational in general.) -/
def IsLpNorm (p : ℕ) (ws : List ℚ) (n : ℚ) : Prop :=
  0 ≤ n ∧ n ^ p = (ws.map (fun w => |w| ^ p)).sum

/-- Holds when `out` is the router's renormalized top-k weight row for post-softmax
weights `ws`: `top_weights / jnp.linalg.norm(top_weights, ord=p)` with
`p = int(moe_normalize_expert_weights)`. -/
def RouterNormalizedWeights (p k : ℕ) (ws out : List ℚ) : Prop :=
  ∃ n, IsLpNorm p (laxTopK k ws).1 n ∧ out = (laxTopK k ws).1.map (fun w => w / n)

/-- Exact range of `jax.nn.softmax` on a row: strictly positive entries
summing to 1. -/
def SoftmaxImage (ws : List ℚ) : Prop :=
  (∀ w ∈ ws, 0 < w) ∧ ws.sum = 1

/-- The `uniform_expert_assignment` override (modelling_dbrx_flax.py,
lines 494-507): `arange(prod(top_experts.shape)) % moe_num_experts` over the
flattened `(numTokens, topK)` index tensor. -/
def uniformTopExperts (numTokens topK numExperts : ℕ) : List ℕ :=
  (List.range (numTokens * topK)).map (fun i => i % numExperts)

/-- The router's returned `top_experts`, flattened: per-token `lax.top_k`
indices, replaced wholesale by the uniform assignment when the override is
on.  `weights` holds one post-softmax row per token. -/
def dbrxRouterTopExperts (weights : List (List ℚ)) (k numExperts : ℕ)
    (uniform : Bool) : List ℕ :=
  if uniform then uniformTopExperts weights.length k numExperts
  else (weights.map (fun w => (laxTopK k w).2)).flatten

/-! ## Decoder blocks (C7) -/

/-- Modelled from the spec: `block_wise_ffn` (imported from
`easydel.modules._base.flax_modeling_utils`, which is not under `src/`) is
the chunked/checkpointed application of the block's MLP; §4.5 requires the
memory-saving policy "must not change numerical output", so it equals plain
application of the MLP. -/
def blockWiseFfn {V : Type} (mlp : V → V) (x : V) : V :=
  mlp x

/-- Embeds `GPTNeoXBlock.__call__` (modeling_gpt_neo_x_flax.py, lines 272-302):
attention on the pre-norm branch, then either the parallel-residual sum
`mlp + hidden_states + attn` or the sequential
`attn + hidden_states` followed by `mlp(post_norm(·)) + ·`. -/
def gptNeoXBlock {V : Type} [AddCommMonoid V] (useParallelResidual : Bool)
    (inputLayernorm postAttentionLayernorm attention mlp : V → V) (x : V) : V :=
  let attn := attention (inputLayernorm x)
  if useParallelResidual then
    mlp (postAttentionLayernorm x) + x + attn
  else
    let h := attn + x
    mlp (postAttentionLayernorm h) + h

/-- Embeds `MistralDecoderLayer.__call__` (modeling_mistral_flax.py, lines 311-349):
`hidden_states = attention_output + residual`, post-attention norm, MLP
(chunked under `use_scan_mlp`), final residual add. -/
def mistralDecoderLayer {V : Type} [AddCommMonoid V] (useScanMlp : Bool)
    (inputLayernorm postAttentionLayernorm selfAttn mlp : V → V) (x : V) : V :=
  let residual := x
  let attnOut := selfAttn (inputLayernorm x)
  let h := attnOut + residual
  let ffdInp := postAttentionLayernorm h
  let ff := if useScanMlp then blockWiseFfn mlp ffdInp else mlp ffdInp
  h + ff

/-! ## Helper lemmas -/

/-- One packed byte splits back into its high nibble. -/
theorem nibble_high : ∀ q0 < 16, ∀ q1 < 16,
    ((((q0 <<< 4) % 2 ^ 32) ||| q1) % 256) >>> 4 &&& 15 = q0 := by decide

/-- One packed byte splits back into its low nibble. -/
theorem nibble_low : ∀ q0 < 16, ∀ q1 < 16,
    ((((q0 <<< 4) % 2 ^ 32) ||| q1) % 256) &&& 15 = q1 := by decide

/-! ## Claim theorems -/

/-- C2: the input-validation of the three model forward passes.  Mistral
accepts exactly the calls supplying exactly one of `input_ids` and
embeddings; DBRX and GPT-NeoX, however, also reject the embeds-only call
(supplying exactly the embeddings), contradicting the claim, the spec and
their own error message — the code slip the claim's `code_bug` records. -/
theorem inputs_check_embeds_only_rejected :
    dbrxInputsCheck false true
        = .error "you should specify input_embeds or input_ids one of them"
      ∧ gptNeoXInputsCheck false true
        = .error "you should specify input_embeds or input_ids one of them"
      ∧ (∀ ids embeds, mistralInputsCheck ids embeds = .ok ()
          ↔ exactlyOneInput ids embeds)
      ∧ (∀ ids embeds, dbrxInputsCheck ids embeds = .ok ()
          ↔ (ids = true ∧ embeds = false)) := by
  refine ⟨rfl, rfl, ?_, ?_⟩
  · intro ids embeds
    cases ids <;> cases embeds <;> simp [mistralInputsCheck, exactlyOneInput]
  · intro ids embeds
    cases ids <;> cases embeds <;> simp [dbrxInputsCheck]

/-- C3 (counterexample): with compute dtype bfloat16, the Mistral
ForCausalLM logits keep dtype bfloat16 — they are not promoted to
float32. -/
theorem mistral_logits_dtype_counterexample :
    mistralLogitsDtype false DType.bf16 DType.bf16 DType.f32 = DType.bf16
      ∧ DType.bf16 ≠ DType.f32 := by
  exact ⟨rfl, by decide⟩

/-- C3 (amended): GPT-NeoX always casts its logits to float32, while
Mistral (untied head) and DBRX return logits in the configured compute
dtype, so their logits are float32 exactly when the compute dtype is. -/
theorem logits_dtype_amended :
    (∀ tie hd cd pd, gptNeoXLogitsDtype tie hd cd pd = DType.f32)
      ∧ (∀ hd cd pd, mistralLogitsDtype false hd cd pd = cd)
      ∧ (∀ hd cd pd, dbrxLogitsDtype hd cd pd = cd) := by
  refine ⟨?_, ?_, ?_⟩ <;> intros <;> rfl

/-- C5: with `moe_jitter_eps = 1/10`, the Gaussian noise outcome `2`
(realizable, since a standard normal has full support) yields the jitter
factor `13/10`, outside the interval `[1 - eps, 1 + eps] = [9/10, 11/10]`
the claim requires — the router's jitter is not uniform in that interval. -/
theorem jitter_factor_escapes_interval :
    dbrxJitterFactor (1 / 10) 2 = 13 / 10
      ∧ ¬(dbrxJitterFactor (1 / 10) 2 ≤ 1 + 1 / 10) := by
  constructor <;> norm_num [dbrxJitterFactor]

/-- C9: the sequence-length checks of the Mistral and GPT-NeoX model
forward passes succeed exactly when the sequence fits in the configured
maximum; when they fail, the assertion message spells out the configured
maximum and the actual sequence length. -/
theorem max_position_check_spec (maxPos seqLen : ℕ) :
    (mistralMaxPositionCheck maxPos seqLen = .ok () ↔ seqLen ≤ maxPos)
      ∧ (gptNeoXMaxPositionCheck maxPos seqLen = .ok () ↔ seqLen ≤ maxPos)
      ∧ (maxPos < seqLen →
          mistralMaxPositionCheck maxPos seqLen
              = .error (maxPositionMessage maxPos seqLen)
            ∧ gptNeoXMaxPositionCheck maxPos seqLen
              = .error (maxPositionMessage maxPos seqLen))
      ∧ ∃ pre mid post, maxPositionMessage maxPos seqLen
          = pre ++ toString maxPos ++ mid ++ toString seqLen ++ post := by
  refine ⟨?_, ?_, ?_, ?_⟩
  · unfold mistralMaxPositionCheck
    split <;> simp_all
  · unfold gptNeoXMaxPositionCheck
    split <;> simp_all
  · intro h
    have hn : ¬ seqLen ≤ maxPos := by omega
    constructor <;> simp [mistralMaxPositionCheck, gptNeoXMaxPositionCheck, hn]
  · exact ⟨"Maximum Position Embedding Reached ! (Excepted <= ", " got ", ")", rfl⟩

/-- C9 (witness): at maximum 10 and sequence length 12, both checks fail
with the message naming 10 and 12; at sequence length 10 they pass. -/
theorem max_position_check_spec_witness :
    (10 < 12 →
        mistralMaxPositionCheck 10 12 = .error (maxPositionMessage 10 12)
          ∧ gptNeoXMaxPositionCheck 10 12 = .error (maxPositionMessage 10 12))
      ∧ (mistralMaxPositionCheck 10 10 = .ok () ↔ 10 ≤ 10) :=
  ⟨(max_position_check_spec 10 12).2.2.1, (max_position_check_spec 10 10).1⟩

/-- C10: constructing `LinearNF4` with `do_init=True` always raises a
TypeError (the two-parameter staticmethod `_quantize_kernel` is called with
one argument) before any parameter is stored, while `do_init=False` always
succeeds and stores `None` for `packed_kernel`, `scales` and `bias`. -/
theorem linearNF4_init_spec (useBias : Bool) (kernel : List FP)
    (biasInit : List ℚ) (blockSize : ℕ) :
    linearNF4Init true useBias kernel biasInit blockSize
        = .typeError "_quantize_kernel() missing 1 required positional argument: block_size"
      ∧ linearNF4Init false useBias kernel biasInit blockSize
        = .ok ⟨none, none, none⟩ := by
  constructor <;> rfl

/-- C8: for an even-length sequence of 4-bit codes, packing pairs into
high/low nibbles and unpacking them again is the identity. -/
theorem pack_unpack_roundtrip :
    ∀ cs : List ℕ, (∀ c ∈ cs, c < 16) → Even cs.length →
      unpackPairs (packPairs cs) = cs
  | [], _, _ => rfl
  | [c], _, hev => by simp at hev
  | c0 :: c1 :: rest, hlt, hev => by
    have h0 : c0 < 16 := hlt c0 (by simp)
    have h1 : c1 < 16 := hlt c1 (by simp)
    have hrest : ∀ c ∈ rest, c < 16 := fun c hc => hlt c (by simp [hc])
    have hevr : Even rest.length := by
      rcases hev with ⟨m, hm⟩
      simp only [List.length_cons] at hm
      exact ⟨m - 1, by omega⟩
    have ih := pack_unpack_roundtrip rest hrest hevr
    simp only [packPairs, unpackPairs, ih]
    rw [nibble_high c0 h0 c1 h1, nibble_low c0 h0 c1 h1]

/-- C8 (witness): the roundtrip at the concrete code sequence
`[1, 15, 0, 7]`. -/
theorem pack_unpack_roundtrip_witness :
    unpackPairs (packPairs [1, 15, 0, 7]) = [1, 15, 0, 7] :=
  pack_unpack_roundtrip [1, 15, 0, 7] (by decide) (by decide)

/-- C1 (counterexample): one token, `moe_top_k = 2`, `moe_num_experts = 2`,
router weights `[1, 0]`.  The override returns expert indices `[0, 1]` for
the token, but the token's flattened token index modulo the expert count is
`0 % 2 = 0` — the second returned index differs, so the indices do not all
equal the token's flattened token index modulo `moe_num_experts`. -/
theorem uniform_assignment_counterexample :
    dbrxRouterTopExperts [[(1 : ℚ), 0]] 2 2 true = [0, 1]
      ∧ (dbrxRouterTopExperts [[(1 : ℚ), 0]] 2 2 true).getD 1 0 ≠ 0 % 2 := by
  constructor <;> decide

/-- C1 (amended): under `uniform_expert_assignment=True` the returned
`top_experts` tensor has, at flattened element position `i` (token index
times `moe_top_k` plus top-k slot), the value `i % moe_num_experts`; the
result ignores the router weights entirely (any weights with the same token
count give the same assignment). -/
theorem uniform_assignment_by_flat_index (ws ws' : List (List ℚ)) (k n i : ℕ)
    (hlen : ws.length = ws'.length) (hi : i < ws.length * k) :
    (dbrxRouterTopExperts ws k n true).getD i 0 = i % n
      ∧ dbrxRouterTopExperts ws k n true = dbrxRouterTopExperts ws' k n true := by
  constructor
  · show (uniformTopExperts ws.length k n).getD i 0 = i % n
    unfold uniformTopExperts
    have hlen2 : i < ((List.range (ws.length * k)).map (· % n)).length := by
      simpa using hi
    rw [List.getD_eq_getElem _ _ hlen2, List.getElem_map, List.getElem_range]
  · show uniformTopExperts ws.length k n = uniformTopExperts ws'.length k n
    rw [hlen]

/-- C1 (witness): three tokens, top-2 of four experts; element 5 (token 2,
slot 1) receives expert `5 % 4 = 1`, and replacing the router weights with
different ones changes nothing. -/
theorem uniform_assignment_by_flat_index_witness :
    (dbrxRouterTopExperts [[(1 : ℚ), 0], [0, 1], [2, 3]] 2 4 true).getD 5 0 = 5 % 4
      ∧ dbrxRouterTopExperts [[(1 : ℚ), 0], [0, 1], [2, 3]] 2 4 true
        = dbrxRouterTopExperts [[(0 : ℚ), 0], [5, 7], [9, 11]] 2 4 true :=
  uniform_assignment_by_flat_index [[(1 : ℚ), 0], [0, 1], [2, 3]]
    [[(0 : ℚ), 0], [5, 7], [9, 11]] 2 4 5 (by rfl) (by decide)

/-- C7: the decoder blocks compute the spec's fixed pipelines: the
parallel-residual GPT-NeoX block returns
`mlp(post_norm(x)) + x + attention(pre_norm(x))`, and the sequential
GPT-NeoX block and the Mistral layer (chunked MLP or not) return
`h + mlp(post_norm(h))` for `h = x + attention(pre_norm(x))`. -/
theorem decoder_block_pipeline {V : Type} [AddCommMonoid V]
    (norm1 norm2 attention mlp : V → V) (x : V) :
    gptNeoXBlock true norm1 norm2 attention mlp x
        = mlp (norm2 x) + x + attention (norm1 x)
      ∧ gptNeoXBlock false norm1 norm2 attention mlp x
        = (x + attention (norm1 x)) + mlp (norm2 (x + attention (norm1 x)))
      ∧ ∀ useScanMlp,
          mistralDecoderLayer useScanMlp norm1 norm2 attention mlp x
            = (x + attention (norm1 x)) + mlp (norm2 (x + attention (norm1 x))) := by
  refine ⟨rfl, ?_, ?_⟩
  · show mlp (norm2 (attention (norm1 x) + x)) + (attention (norm1 x) + x)
        = (x + attention (norm1 x)) + mlp (norm2 (x + attention (norm1 x)))
    rw [add_comm (attention (norm1 x)) x, add_comm]
  · intro useScanMlp
    cases useScanMlp
    · show (attention (norm1 x) + x) + mlp (norm2 (attention (norm1 x) + x))
          = (x + attention (norm1 x)) + mlp (norm2 (x + attention (norm1 x)))
      rw [add_comm (attention (norm1 x)) x]
    · show (attention (norm1 x) + x) + blockWiseFfn mlp (norm2 (attention (norm1 x) + x))
          = (x + attention (norm1 x)) + mlp (norm2 (x + attention (norm1 x)))
      rw [add_comm (attention (norm1 x)) x]
      rfl

/-- C7 (witness): the pipelines evaluated on the integers with identity
norms, attention and MLP at `x = 3`. -/
theorem decoder_block_pipeline_witness :
    gptNeoXBlock (V := ℤ) true id id id id 3 = 9
      ∧ mistralDecoderLayer (V := ℤ) false id id id id 3 = 12 :=
  ⟨(decoder_block_pipeline (V := ℤ) id id id id 3).1.trans (by decide),
   ((decoder_block_pipeline (V := ℤ) id id id id 3).2.2 false).trans (by decide)⟩

/-- The helper `pickMax` splits its input into the selected pair and the rest: together
they are a permutation of the input. -/
theorem pickMax_perm : ∀ (b : ℕ × ℚ) (l : List (ℕ × ℚ)),
    ((pickMax b l).1 :: (pickMax b l).2).Perm (b :: l)
  | _, [] => List.Perm.refl _
  | b, x :: xs => by
    by_cases h : b.2 < x.2
    · simp only [pickMax, if_pos h]
      exact (List.Perm.swap b (pickMax x xs).1 (pickMax x xs).2).trans
        ((pickMax_perm x xs).cons b)
    · simp only [pickMax, if_neg h]
      exact ((List.Perm.swap x (pickMax b xs).1 (pickMax b xs).2).trans
        ((pickMax_perm b xs).cons x)).trans (List.Perm.swap b x xs)

/-- Every pair returned by the top-k selection comes from the input. -/
theorem topKAux_mem : ∀ (k : ℕ) (l : List (ℕ × ℚ)) (p : ℕ × ℚ),
    p ∈ topKAux k l → p ∈ l
  | 0, _, _, h => by simp [topKAux] at h
  | _ + 1, [], _, h => by simp [topKAux] at h
  | k + 1, x :: xs, p, h => by
    simp only [topKAux] at h
    rcases List.mem_cons.mp h with rfl | hmem
    · exact (pickMax_perm x xs).mem_iff.mp (List.mem_cons_self _ _)
    · exact (pickMax_perm x xs).mem_iff.mp
        (List.mem_cons_of_mem _ (topKAux_mem k _ p hmem))

/-- The top-k selection of a positive count from a nonempty list is
nonempty. -/
theorem topKAux_ne_nil (k : ℕ) (l : List (ℕ × ℚ)) (hk : 0 < k) (hl : l ≠ []) :
    topKAux k l ≠ [] := by
  cases k with
  | zero => omega
  | succ k =>
    cases l with
    | nil => exact absurd rfl hl
    | cons x xs => simp [topKAux]

/-- A pair of `enumFrom` carries an element of the underlying list. -/
theorem enumFrom_snd_mem : ∀ (n : ℕ) (l : List ℚ) (p : ℕ × ℚ),
    p ∈ List.enumFrom n l → p.2 ∈ l
  | _, [], _, h => by simp at h
  | n, x :: xs, p, h => by
    rcases List.mem_cons.mp h with rfl | h2
    · exact List.mem_cons_self _ _
    · exact List.mem_cons_of_mem _ (enumFrom_snd_mem (n + 1) xs p h2)

/-- Every top-k weight returned by `jax.lax.top_k` is one of the input
weights. -/
theorem laxTopK_val_mem (k : ℕ) (ws : List ℚ) (w : ℚ)
    (hw : w ∈ (laxTopK k ws).1) : w ∈ ws := by
  simp only [laxTopK, List.mem_map] at hw
  obtain ⟨p, hp, rfl⟩ := hw
  exact enumFrom_snd_mem 0 ws p (topKAux_mem k _ p hp)

/-- C6 (amended): for fixed post-softmax router weights the top-k selection
is a pure function (identical calls return identical top-k weights and
indices), and when `moe_normalize_expert_weights = 1` the renormalized
top-k weights — the top-k weights divided by their L1 norm — sum to 1,
because softmax outputs are strictly positive.  (For other enabled norm
orders `p`, the code divides by the Lp norm and the sum is in general not
1; see the counterexample.) -/
theorem router_topk_deterministic_l1_sum_one (ws out : List ℚ) (k : ℕ)
    (hsm : SoftmaxImage ws) (hk : 0 < k)
    (hnorm : RouterNormalizedWeights 1 k ws out) :
    laxTopK k ws = laxTopK k ws ∧ out.sum = 1 := by
  refine ⟨rfl, ?_⟩
  obtain ⟨n, ⟨hn0, hnp⟩, hout⟩ := hnorm
  have hpos : ∀ w ∈ (laxTopK k ws).1, 0 < w :=
    fun w hw => hsm.1 w (laxTopK_val_mem k ws w hw)
  have hwsne : ws ≠ [] := by
    intro h
    rw [h] at hsm
    simpa using hsm.2
  have htwne : (laxTopK k ws).1 ≠ [] := by
    have henum : ws.enum ≠ [] := by
      cases ws with
      | nil => exact absurd rfl hwsne
      | cons x xs => simp [List.enum]
    have := topKAux_ne_nil k ws.enum hk henum
    simpa [laxTopK] using this
  have habs : (laxTopK k ws).1.map (fun w => |w| ^ 1)
      = (laxTopK k ws).1.map (fun w => w) := by
    refine List.map_congr_left (fun a ha => ?_)
    rw [pow_one, abs_of_pos (hpos a ha)]
  have hsum : n = (laxTopK k ws).1.sum := by
    rw [pow_one, habs, List.map_id'] at hnp
    exact hnp
  have hsumpos : 0 < (laxTopK k ws).1.sum :=
    List.sum_pos _ hpos htwne
  have hnne : n ≠ 0 := by rw [hsum]; exact ne_of_gt hsumpos
  rw [hout]
  simp only [div_eq_mul_inv]
  rw [List.sum_map_mul_right, List.map_id', ← hsum, mul_inv_cancel₀ hnne]

/-- C6 (witness): softmax weights `[1/2, 1/4, 1/4]`, top-2 weights
`[1/2, 1/4]`, L1 norm `3/4`, renormalized weights `[2/3, 1/3]` summing
to 1. -/
theorem router_topk_deterministic_l1_sum_one_witness :
    laxTopK 2 [(1 : ℚ)/2, 1/4, 1/4] = laxTopK 2 [(1 : ℚ)/2, 1/4, 1/4]
      ∧ ([(2 : ℚ)/3, 1/3]).sum = 1 := by
  have htop : (laxTopK 2 [(1 : ℚ)/2, 1/4, 1/4]).1 = [1/2, 1/4] := by
    norm_num [laxTopK, topKAux, pickMax, List.enum, List.enumFrom]
  refine router_topk_deterministic_l1_sum_one [(1 : ℚ)/2, 1/4, 1/4]
    [(2 : ℚ)/3, 1/3] 2 ⟨?_, ?_⟩ (by norm_num) ⟨3/4, ⟨?_, ?_⟩, ?_⟩
  · intro w hw
    simp only [List.mem_cons, List.not_mem_nil, or_false] at hw
    rcases hw with rfl | rfl | rfl <;> norm_num
  · norm_num
  · norm_num
  · rw [htop]
    norm_num
    rw [show |(1 : ℚ)/2| = 1/2 from abs_of_pos (by norm_num),
      show |(1 : ℚ)/4| = 1/4 from abs_of_pos (by norm_num)]
    norm_num
  · rw [htop]
    norm_num

/-- C6 (counterexample): with normalization enabled as
`moe_normalize_expert_weights = 2` (L2 norm), the softmax weight row below
has top-2 weights `[4/25, 3/25]` with L2 norm `1/5`; the renormalized
weights `[4/5, 3/5]` sum to `7/5 ≠ 1` — renormalized top-k weights do not
sum to 1 for every enabled normalization setting. -/
theorem l2_normalized_weights_sum_ne_one :
    SoftmaxImage [(4 : ℚ)/25, 3/25, 18/175, 18/175, 18/175, 18/175, 18/175, 18/175, 18/175]
      ∧ RouterNormalizedWeights 2 2
          [(4 : ℚ)/25, 3/25, 18/175, 18/175, 18/175, 18/175, 18/175, 18/175, 18/175]
          [(4 : ℚ)/5, 3/5]
      ∧ ([(4 : ℚ)/5, 3/5]).sum ≠ 1 := by
  have htop : (laxTopK 2
      [(4 : ℚ)/25, 3/25, 18/175, 18/175, 18/175, 18/175, 18/175, 18/175, 18/175]).1
      = [4/25, 3/25] := by
    norm_num [laxTopK, topKAux, pickMax, List.enum, List.enumFrom]
  refine ⟨⟨?_, ?_⟩, ⟨1/5, ⟨?_, ?_⟩, ?_⟩, ?_⟩
  · intro w hw
    simp only [List.mem_cons, List.not_mem_nil, or_false] at hw
    rcases hw with rfl | rfl | rfl | rfl | rfl | rfl | rfl | rfl | rfl <;> norm_num
  · norm_num
  · norm_num
  · rw [htop]
    norm_num
  · rw [htop]
    norm_num
  · norm_num

/-! ### Helper lemmas for the zero-block roundtrip -/

/-- Unfolding `chunkAux` on a nonempty list with fuel left. -/
theorem chunkAux_succ_ne_nil {α : Type} (bs fuel : ℕ) (l : List α) (h : l ≠ []) :
    chunkAux bs (fuel + 1) l = l.take bs :: chunkAux bs fuel (l.drop bs) := by
  cases l with
  | nil => exact absurd rfl h
  | cons x xs => rfl

/-- Chunking a constant list of `k * bs` elements into rows of `bs` gives
`k` constant rows. -/
theorem chunkAux_replicate {α : Type} (bs : ℕ) (hbs : 0 < bs) :
    ∀ (k fuel : ℕ) (a : α), k ≤ fuel →
      chunkAux bs fuel (List.replicate (k * bs) a)
        = List.replicate k (List.replicate bs a)
  | 0, fuel, a, _ => by
    rw [Nat.zero_mul]
    cases fuel <;> rfl
  | k + 1, fuel, a, hle => by
    obtain ⟨f, rfl⟩ : ∃ f, fuel = f + 1 := ⟨fuel - 1, by omega⟩
    have hne : List.replicate ((k + 1) * bs) a ≠ [] := by
      rw [Ne, List.replicate_eq_nil_iff]
      exact Nat.pos_iff_ne_zero.mp (Nat.mul_pos (Nat.succ_pos k) hbs)
    rw [chunkAux_succ_ne_nil bs f _ hne, List.take_replicate, List.drop_replicate]
    have hmin : min bs ((k + 1) * bs) = bs :=
      Nat.min_eq_left (Nat.le_mul_of_pos_left bs (Nat.succ_pos k))
    have hsub : (k + 1) * bs - bs = k * bs := by
      rw [Nat.succ_mul]
      omega
    rw [hmin, hsub, chunkAux_replicate bs hbs k f a (by omega), List.replicate_succ]

/-- Computes `reshapeRows` of a constant list. -/
theorem reshapeRows_replicate {α : Type} (bs k : ℕ) (hbs : 0 < bs) (a : α) :
    reshapeRows bs (List.replicate (k * bs) a)
      = List.replicate k (List.replicate bs a) := by
  unfold reshapeRows
  rw [List.length_replicate]
  exact chunkAux_replicate bs hbs k (k * bs) a (Nat.le_mul_of_pos_right k hbs)

/-- The float maximum of a nonempty all-zero vector is zero. -/
theorem fpListMax_replicate_zero : ∀ n : ℕ, 0 < n →
    fpListMax (List.replicate n (FP.fin 0)) = FP.fin 0 := by
  have haux : ∀ m : ℕ,
      List.foldl fpMax (FP.fin 0) (List.replicate m (FP.fin 0)) = FP.fin 0 := by
    intro m
    induction m with
    | zero => rfl
    | succ m ih =>
      rw [List.replicate_succ, List.foldl_cons,
        show fpMax (FP.fin 0) (FP.fin 0) = FP.fin 0 by simp [fpMax]]
      exact ih
  intro n hn
  obtain ⟨m, rfl⟩ : ∃ m, n = m + 1 := ⟨n - 1, by omega⟩
  unfold fpListMax
  rw [List.replicate_succ, List.foldl_cons,
    show fpMax FP.ninf (FP.fin 0) = FP.fin 0 from rfl]
  exact haux m

/-- Division of zero by zero is NaN for the IEEE division. -/
theorem fpDiv_zero_zero : fpDiv (FP.fin 0) (FP.fin 0) = FP.nan := by
  simp [fpDiv]

/-- The NF4 code of a NaN normalized value: all 16 boundaries sort below
NaN, so `searchsorted` returns 16 and the int32 code is 15. -/
theorem quantCode_nan : quantCode FP.nan = 15 := by decide

/-- Packing an even-length constant stream of code 15 yields bytes 255. -/
theorem packPairs_replicate_15 : ∀ j : ℕ,
    packPairs (List.replicate (2 * j) 15) = List.replicate j 255
  | 0 => rfl
  | j + 1 => by
    have h : 2 * (j + 1) = 2 * j + 1 + 1 := by ring
    rw [h, List.replicate_succ, List.replicate_succ]
    show (((15 <<< 4) % 2 ^ 32 ||| 15) % 256) :: packPairs (List.replicate (2 * j) 15)
        = 255 :: List.replicate j 255
    rw [packPairs_replicate_15 j]
    simp only [List.cons.injEq]
    exact ⟨by decide, trivial⟩

/-- Unpacking constant bytes 255 yields the constant code stream 15. -/
theorem unpackPairs_replicate_255 : ∀ j : ℕ,
    unpackPairs (List.replicate j 255) = List.replicate (2 * j) 15
  | 0 => rfl
  | j + 1 => by
    rw [List.replicate_succ,
      show 2 * (j + 1) = 2 * j + 1 + 1 by ring,
      List.replicate_succ, List.replicate_succ]
    show ((255 >>> 4) &&& 15) :: (255 &&& 15) :: unpackPairs (List.replicate j 255)
        = 15 :: 15 :: List.replicate (2 * j) 15
    rw [unpackPairs_replicate_255 j]
    simp only [List.cons.injEq]
    exact ⟨by decide, by decide, trivial⟩

/-- Flattening `k` constant rows of length `bs`. -/
theorem flatten_replicate_replicate {α : Type} (bs : ℕ) (a : α) : ∀ k : ℕ,
    (List.replicate k (List.replicate bs a)).flatten = List.replicate (k * bs) a
  | 0 => by rw [Nat.zero_mul]; rfl
  | k + 1 => by
    rw [List.replicate_succ, List.flatten_cons, flatten_replicate_replicate bs a k,
      Nat.succ_mul, Nat.add_comm (k * bs) bs, List.replicate_add]

/-- Zipping two equal-length constant lists. -/
theorem zip_replicate_same {α β : Type} (n : ℕ) (a : α) (b : β) :
    (List.replicate n a).zip (List.replicate n b) = List.replicate n (a, b) := by
  simp [List.zip_replicate]

/-- C4: quantizing `k` blocks of `bs` zeros (block absmax exactly zero, so
the normalization divides `0 / 0 = NaN`; `searchsorted` sends NaN past every
boundary, giving code 15) and dequantizing again (`NF4_TABLE[15] = 1.0`
times the stored absmax `0`) yields exactly the zero blocks back — no NaN
or Inf survives to the result, and every step of the pipeline is total (no
error is raised). -/
theorem nf4_zero_block_roundtrip (k bs : ℕ) (hbs : 0 < bs) (heven : Even bs) :
    singleDequantizeNF4
        (singleQuantizeAndPackNF4 (List.replicate (k * bs) (FP.fin 0)) bs).1
        (singleQuantizeAndPackNF4 (List.replicate (k * bs) (FP.fin 0)) bs).2 bs
      = List.replicate k (List.replicate bs (FP.fin 0)) := by
  obtain ⟨c, hc⟩ := heven
  have hrows : reshapeRows bs (List.replicate (k * bs) (FP.fin 0))
      = List.replicate k (List.replicate bs (FP.fin 0)) :=
    reshapeRows_replicate bs k hbs _
  have habsrow : (List.replicate bs (FP.fin 0)).map fpAbs
      = List.replicate bs (FP.fin 0) := by
    rw [List.map_replicate]
    simp [fpAbs]
  have habs : (List.replicate k (List.replicate bs (FP.fin 0))).map
        (fun r => fpListMax (r.map fpAbs)) = List.replicate k (FP.fin 0) := by
    rw [List.map_replicate, habsrow, fpListMax_replicate_zero bs hbs]
  have hq : singleQuantizeAndPackNF4 (List.replicate (k * bs) (FP.fin 0)) bs
      = (List.replicate (k * c) 255, List.replicate k (FP.fin 0)) := by
    simp only [singleQuantizeAndPackNF4]
    rw [hrows, habs, zip_replicate_same]
    simp only [List.map_replicate]
    rw [fpDiv_zero_zero, flatten_replicate_replicate]
    simp only [List.map_replicate]
    rw [quantCode_nan, show k * bs = 2 * (k * c) from by rw [hc]; ring,
      packPairs_replicate_15]
  have hd : singleDequantizeNF4 (List.replicate (k * c) 255)
        (List.replicate k (FP.fin 0)) bs
      = List.replicate k (List.replicate bs (FP.fin 0)) := by
    simp only [singleDequantizeNF4]
    rw [unpackPairs_replicate_255]
    simp only [List.map_replicate]
    rw [show nf4Table 15 = 1 from by norm_num [nf4Table],
      show (2 : ℕ) * (k * c) = k * bs from by rw [hc]; ring,
      reshapeRows_replicate bs k hbs (FP.fin 1), zip_replicate_same]
    simp only [List.map_replicate]
    rw [show fpMul (FP.fin 1) (FP.fin 0) = FP.fin 0 from by simp [fpMul]]
  rw [hq]
  exact hd

/-- C4 (witness): one all-zero block of size 2 survives the roundtrip as
exact zeros. -/
theorem nf4_zero_block_roundtrip_witness :
    0 < 2 ∧ Even 2 ∧
      singleDequantizeNF4
          (singleQuantizeAndPackNF4 (List.replicate (1 * 2) (FP.fin 0)) 2).1
          (singleQuantizeAndPackNF4 (List.replicate (1 * 2) (FP.fin 0)) 2).2 2
        = List.replicate 1 (List.replicate 2 (FP.fin 0)) :=
  ⟨by decide, ⟨1, rfl⟩, nf4_zero_block_roundtrip 1 2 (by decide) ⟨1, rfl⟩⟩

end EasyDeL
